import Mathlib

/-!
Host filters of gocql (filters.go)

A shallow embedding of `filters.go`: the `HostFilter` capability, the
`HostFilterFunc` adapter, and the four built-in policies `AcceptAllFilter`,
`DenyAllFilter`, `DataCentreHostFilter` and `WhiteListHostFilter`.

Modelling conventions.

* The argument of `Accept` is a Go pointer `*HostInfo`: either the nil pointer or a
  pointer to a descriptor.  Reading a field through the nil pointer is the Go
  runtime panic for a nil dereference.
* A Go function value of type `func(host *HostInfo) bool` is a closure: code
  together with the variables it captured.  A call receives the captured
  variables and the pointer, and hands back the returned boolean together with
  the captured variables and the pointed-to object as they are after the call.
  A call may also panic, which is the `Except.error` outcome.
* A Go `map[string]bool` is an association list with at most one entry per key;
  indexing a missing key yields the zero value `false` and does not insert.
* `net.IP` is a byte slice, and `string(ip)` is the Go string made of exactly
  those bytes, so map keys are byte lists.
* `addrsToHosts` is not part of `filters.go`.  The body of a constructor that
  consults it is a tree of resolver calls: the body can obtain results of the
  resolver only by issuing a call, and running the body against a resolver
  records every batch that was handed over.  The two Go results of a call (the
  descriptors and the error) are kept as a pair, so a resolver that reports an
  error and descriptors at once is representable.
-/

set_option linter.dupNamespace false

namespace Gocql

/-! ## Data model -/

/-- Go type `net.IP`: a slice of bytes. -/
abbrev IP := List UInt8

/-- Go `string` used as a map key: an arbitrary sequence of bytes. -/
abbrev GoString := List UInt8

/-- Go conversion `string(b)` of a byte slice: the string holding the same bytes. -/
def toGoString (b : IP) : GoString := b

/-- Modelled from the spec: the declaration of type HostInfo is not in filters.go.
The spec (section 3) lists the attributes of a host descriptor: the resolved peer
identity, the data-centre label, the address and port as discovered, and the rack
and tokens metadata. -/
structure HostInfo where
  peer : IP
  address : String
  port : Int
  dataCenter : String
  rack : String
  tokens : List String
deriving DecidableEq, Repr

/-- Modelled from the spec: accessor Peer of HostInfo, declared outside filters.go.
It reads the canonical resolved identity of the descriptor. -/
def HostInfo.Peer (h : HostInfo) : IP := h.peer

/-- Modelled from the spec: accessor DataCenter of HostInfo, declared outside
filters.go.  It reads the data-centre label of the descriptor. -/
def HostInfo.DataCenter (h : HostInfo) : String := h.dataCenter

/-- Go pointer type `*HostInfo`, the parameter type of `Accept`: the nil pointer, or
a pointer to a descriptor with the given current contents. -/
inductive HostPtr where
  | nil : HostPtr
  | ref (h : HostInfo) : HostPtr
deriving DecidableEq, Repr

/-- Text of the Go runtime panic raised by a read through the nil pointer. -/
def nilDereference : String :=
  "runtime error: invalid memory address or nil pointer dereference"

/-- Modelled from the spec: the method call `host.Peer()` on a pointer.  The accessor
is declared outside filters.go; it reads the peer of the descriptor the pointer
refers to, and through the nil pointer that read is a nil dereference. -/
def HostPtr.Peer : HostPtr → Except String IP
  | .nil => .error nilDereference
  | .ref h => .ok h.Peer

/-- Modelled from the spec: the method call `host.DataCenter()` on a pointer.  The
accessor is declared outside filters.go; it reads the data-centre label of the
descriptor the pointer refers to, and through the nil pointer that read is a nil
dereference. -/
def HostPtr.DataCenter : HostPtr → Except String String
  | .nil => .error nilDereference
  | .ref h => .ok h.DataCenter

/-- Modelled from the spec: the declaration of type Host is not in filters.go.
A raw, not yet resolved pair of an address string and a port (spec section 3,
HostSpec); the Go zero value of the port is 0. -/
structure Host where
  Host : String
  Port : Int
deriving DecidableEq, Repr

/-- Signature of `addrsToHosts`: from a batch of host specs to the two Go results,
the resolved descriptors and the error (`none` is Go `nil`, `some e` carries the
text of the error). -/
abbrev Resolver := List Host → List HostInfo × Option String

/-! ## Go maps -/

/-- Go `map[string]bool`. -/
abbrev GoMap := List (GoString × Bool)

/-- Go `make(map[string]bool, n)`: the empty map (the size hint has no meaning). -/
def GoMap.make : GoMap := []

/-- Go assignment `m[k] = v`: the entry for `k` is replaced or created. -/
def GoMap.set (m : GoMap) (k : GoString) (v : Bool) : GoMap :=
  (k, v) :: m.filter (fun e => e.1 != k)

/-- Go index expression `m[k]`: the stored value, or the zero value `false` when
the key is absent.  The map itself is not changed by indexing. -/
def GoMap.get (m : GoMap) (k : GoString) : Bool :=
  match m.lookup k with
  | some v => v
  | none => false

/-! ## Function values and the HostFilter capability -/

/-- Go type `HostFilterFunc`, `func(host *HostInfo) bool`: a function value is the
code of a function literal together with the variables it closes over.  The code
maps the captured variables and the pointer argument to the returned boolean, the
captured variables after the call and the pointer with the contents its target has
after the call, or panics. -/
structure HostFilterFunc where
  Env : Type
  env : Env
  code : Env → HostPtr → Except String (Bool × Env × HostPtr)

/-- What is observable once a call of a filter has returned: the result, the
filter instance after the call, and the pointer argument with the contents of its
target after the call. -/
structure Returned where
  value : Bool
  filter : HostFilterFunc
  host : HostPtr

/-- Go call expression `fn(host)` on a function value. -/
def HostFilterFunc.call (fn : HostFilterFunc) (host : HostPtr) : Except String Returned :=
  match fn.code fn.env host with
  | .error e => .error e
  | .ok (b, env, host) => .ok ⟨b, { fn with env := env }, host⟩

/-- Method `Accept` of `HostFilterFunc` (filters.go lines 15-17): `return fn(host)`. -/
def HostFilterFunc.Accept (fn : HostFilterFunc) (host : HostPtr) : Except String Returned :=
  fn.call host

/-- Interface `HostFilter`: in filters.go every filter is a `HostFilterFunc`
converted to the interface, so an interface value is the function value itself. -/
abbrev HostFilter := HostFilterFunc

/-- The function value of a function literal that captures nothing and only
computes its result from the pointer argument. -/
def HostFilterFunc.ofPure (p : HostPtr → Bool) : HostFilterFunc :=
  { Env := Unit, env := (), code := fun env host => .ok (p host, env, host) }

/-! ## Built-in filters -/

/-- Go `AcceptAllFilter` (lines 20-24): the literal returns `true`. -/
def AcceptAllFilter : HostFilter :=
  { Env := Unit, env := (), code := fun env host => .ok (true, env, host) }

/-- Go `DenyAllFilter` (lines 26-30): the literal returns `false`. -/
def DenyAllFilter : HostFilter :=
  { Env := Unit, env := (), code := fun env host => .ok (false, env, host) }

/-- Go `DataCentreHostFilter` (lines 34-38): the literal captures `dataCentre` and
returns `host.DataCenter() == dataCentre`. -/
def DataCentreHostFilter (dataCentre : String) : HostFilter :=
  { Env := String
    env := dataCentre
    code := fun dataCentre host =>
      match HostPtr.DataCenter host with
      | .error e => .error e
      | .ok dc => .ok (dc == dataCentre, dataCentre, host) }

/-- First loop of `WhiteListHostFilter` (lines 43-48): one `Host` per argument, in
order, with only the `Host` field set. -/
def hostSpecs (hosts : List String) : List Host :=
  hosts.map (fun host => { Host := host, Port := 0 })

/-- Second loop of `WhiteListHostFilter` (lines 55-58): starting from the empty
map, `m[string(host.peer)] = true` for each resolved descriptor in order. -/
def buildWhitelist (hostInfos : List HostInfo) : GoMap :=
  hostInfos.foldl (fun m host => m.set (toGoString host.peer) true) GoMap.make

/-- The literal returned by `WhiteListHostFilter` (lines 60-62): it captures the
map `m` and returns `m[string(host.Peer())]`. -/
def whitelistClosure (m : GoMap) : HostFilter :=
  { Env := GoMap
    env := m
    code := fun m host =>
      match HostPtr.Peer host with
      | .error e => .error e
      | .ok peer => .ok (m.get (toGoString peer), m, host) }

/-- Text of the value `WhiteListHostFilter` panics with (line 52). -/
def lookupPanic (err : String) : String :=
  "unable to lookup host info from address: " ++ err

/-- The body of a constructor that may consult the resolver: either it has finished
with a value, or it calls `addrsToHosts` on a batch and goes on with the two
results of that call.  A body has no other access to the resolver. -/
inductive Lookup (α : Type u) : Type u where
  | done (a : α) : Lookup α
  | addrsToHosts (batch : List Host) (next : List HostInfo × Option String → Lookup α) :
      Lookup α

/-- Running a body against a resolver: every call is answered by the resolver and
its batch is recorded; the run yields the batches in call order and the value the
body finishes with. -/
def Lookup.run (resolver : Resolver) : Lookup α → List (List Host) × α
  | .done a => ([], a)
  | .addrsToHosts batch next =>
    ((batch :: ((next (resolver batch)).run resolver).1),
      ((next (resolver batch)).run resolver).2)

/-- Body of Go `WhiteListHostFilter` (lines 42-63): build the batch, call
`addrsToHosts` on it, panic when the error is not nil, otherwise build the map
and return the literal. -/
def whiteListHostFilterBody (hosts : List String) : Lookup (Except String HostFilter) :=
  let h := hostSpecs hosts
  .addrsToHosts h (fun result =>
    match result with
    | (_, some err) => .done (.error (lookupPanic err))
    | (hostInfos, none) => .done (.ok (whitelistClosure (buildWhitelist hostInfos))))

/-- Outcome of running a constructor that consults the resolver: the batches handed
to `addrsToHosts`, in call order, and either the filter or the panic text. -/
structure Construction where
  lookups : List (List Host)
  outcome : Except String HostFilter

/-- Go `WhiteListHostFilter` (lines 42-63), run against the resolver
`addrsToHosts`. -/
def WhiteListHostFilter (addrsToHosts : Resolver) (hosts : List String) : Construction :=
  { lookups := ((whiteListHostFilterBody hosts).run addrsToHosts).1
    outcome := ((whiteListHostFilterBody hosts).run addrsToHosts).2 }

/-! ## Vocabulary of the specification -/

/-- The outcome of a call of `Accept` on a pointer, with effects projected away: the
returned boolean or the panic. -/
def HostFilterFunc.decisionAt (f : HostFilter) (p : HostPtr) : Except String Bool :=
  match f.Accept p with
  | .error e => .error e
  | .ok r => .ok r.value

/-- The boolean a call of `Accept` returns on a pointer to the descriptor `h`, with
effects projected away. -/
def HostFilterFunc.decision (f : HostFilter) (h : HostInfo) : Except String Bool :=
  f.decisionAt (.ref h)

/-- A filter instance produced by one of the four constructors of filters.go. -/
def BuiltIn (f : HostFilter) : Prop :=
  f = AcceptAllFilter ∨ f = DenyAllFilter ∨ (∃ dc, f = DataCentreHostFilter dc) ∨
    ∃ (r : Resolver) (hosts : List String), (WhiteListHostFilter r hosts).outcome = .ok f

/-- The instance left after a sequence of `Accept` calls on `f`, one per pointer of
the list in order; a panicking call leaves the instance as it was. -/
def afterCalls (f : HostFilter) : List HostPtr → HostFilter
  | [] => f
  | h :: hs =>
    match f.Accept h with
    | .error _ => afterCalls f hs
    | .ok r => afterCalls r.filter hs

/-- A body that calls the resolver exactly once, on the given batch, and finishes
whatever the resolver answers. -/
def Lookup.callsOnceOn (batch : List Host) : Lookup α → Prop
  | .done _ => False
  | .addrsToHosts b next => b = batch ∧ ∀ result, ∃ a, next result = .done a

/-- The descriptor all of whose fields are empty. -/
def emptyHost : HostInfo :=
  { peer := [], address := "", port := 0, dataCenter := "", rack := "", tokens := [] }

/-- A descriptor of which only the peer is known. -/
def hostWithPeer (p : IP) : HostInfo := { emptyHost with peer := p }

/-- A descriptor of which only the data centre is known. -/
def hostInDataCentre (dc : String) : HostInfo := { emptyHost with dataCenter := dc }

/-- UTF-8 bytes of a string. -/
def utf8Bytes (s : String) : List UInt8 :=
  s.data.flatMap String.utf8EncodeChar

/-- A resolver that always succeeds and maps every address one-to-one to itself:
the peer of the descriptor is the text of the address. -/
def selfResolver : Resolver := fun specs =>
  (specs.map (fun s => { emptyHost with peer := utf8Bytes s.Host, address := s.Host, port := s.Port }),
    none)

/-- A resolver that reports an error for every batch while still handing back the
descriptors it could build. -/
def partialResolver : Resolver := fun specs =>
  ((selfResolver specs).1, some "lookup failed")

/-- A resolver that succeeds with the given descriptors whatever the batch is. -/
def fixedResolver (R : List HostInfo) : Resolver := fun _ => (R, none)

/-- The peers of a list of resolved descriptors, in order, duplicates kept. -/
def peersOf (R : List HostInfo) : List IP := R.map (fun d => d.peer)

/-- The 4-byte form of an IPv4 address. -/
def ipv4 (a b c d : UInt8) : IP := [a, b, c, d]

/-- The 16-byte form of an IPv4 address: ten zero bytes, two bytes 0xff, then the
four bytes of the address. -/
def ipv4In16 (a b c d : UInt8) : IP :=
  List.replicate 10 0 ++ [0xff, 0xff, a, b, c, d]

/-! ## Lemmas on Go maps -/

theorem lookup_filter_ne (m : GoMap) (k q : GoString) :
    (m.filter (fun e => e.1 != k)).lookup q = if q = k then none else m.lookup q := by
  induction m with
  | nil => simp
  | cons e m ih =>
    obtain ⟨a, v⟩ := e
    by_cases hak : a = k
    · rw [List.filter_cons_of_neg (by simp [hak]), ih]
      by_cases hq : q = k
      · simp [hq]
      · have hqa : (q == a) = false := by simp [hak, hq]
        simp [hq, List.lookup_cons, hqa]
    · rw [List.filter_cons_of_pos (by simp [hak]), List.lookup_cons, List.lookup_cons, ih]
      by_cases hq : q = k
      · have hqa : (q == a) = false := by
          simp only [beq_eq_false_iff_ne]
          intro h
          exact hak (h.symm.trans hq)
        simp [hq, hqa]
        subst hq
        simp [hqa]
      · simp [hq]

theorem GoMap.get_set (m : GoMap) (k q : GoString) (v : Bool) :
    (m.set k v).get q = if q = k then v else m.get q := by
  unfold GoMap.get GoMap.set
  by_cases hq : q = k
  · subst hq
    simp
  · have hqk : (q == k) = false := by simp [hq]
    simp [List.lookup_cons, hq, hqk, lookup_filter_ne]

theorem foldl_set_get (R : List HostInfo) (m : GoMap) (q : GoString) :
    (R.foldl (fun m host => m.set (toGoString host.peer) true) m).get q = true ↔
      m.get q = true ∨ ∃ d ∈ R, d.peer = q := by
  induction R generalizing m with
  | nil => simp
  | cons d R ih =>
    rw [List.foldl_cons, ih, GoMap.get_set]
    by_cases hq : q = toGoString d.peer
    · have hd : d.peer = q := hq.symm
      simp [hq, toGoString]
    · have hd : ¬ d.peer = q := fun h => hq h.symm
      simp [hq, hd]

theorem buildWhitelist_get (R : List HostInfo) (q : GoString) :
    (buildWhitelist R).get q = true ↔ ∃ d ∈ R, d.peer = q := by
  unfold buildWhitelist
  rw [foldl_set_get]
  simp [GoMap.make, GoMap.get]

/-! ## Lemmas on the built-in closures -/

theorem whitelistClosure_accept (m : GoMap) (h : HostInfo) :
    (whitelistClosure m).Accept (.ref h) =
      .ok ⟨m.get (toGoString h.Peer), whitelistClosure m, .ref h⟩ := rfl

theorem whitelist_body_run (r : Resolver) (hosts : List String) :
    (whiteListHostFilterBody hosts).run r =
      ([hostSpecs hosts],
        match (r (hostSpecs hosts)).2 with
        | some err => .error (lookupPanic err)
        | none => .ok (whitelistClosure (buildWhitelist (r (hostSpecs hosts)).1))) := by
  unfold whiteListHostFilterBody
  rcases hr : r (hostSpecs hosts) with ⟨R, _ | err⟩ <;> simp [Lookup.run, hr]

theorem whitelist_outcome (r : Resolver) (hosts : List String) :
    (WhiteListHostFilter r hosts).outcome =
      match (r (hostSpecs hosts)).2 with
      | some err => .error (lookupPanic err)
      | none => .ok (whitelistClosure (buildWhitelist (r (hostSpecs hosts)).1)) := by
  unfold WhiteListHostFilter
  rw [whitelist_body_run]

theorem whitelist_ok_shape (r : Resolver) (hosts : List String) (f : HostFilter)
    (hok : (WhiteListHostFilter r hosts).outcome = .ok f) :
    f = whitelistClosure (buildWhitelist (r (hostSpecs hosts)).1) := by
  rw [whitelist_outcome] at hok
  rcases hr : (r (hostSpecs hosts)).2 with _ | err
  · rw [hr] at hok
    exact (Except.ok.inj hok).symm
  · rw [hr] at hok
    cases hok

theorem builtIn_readOnly (f : HostFilter) (hf : BuiltIn f) (h : HostInfo) :
    ∃ b, f.Accept (.ref h) = .ok ⟨b, f, .ref h⟩ := by
  rcases hf with rfl | rfl | ⟨dc, rfl⟩ | ⟨r, hosts, hok⟩
  · exact ⟨true, rfl⟩
  · exact ⟨false, rfl⟩
  · exact ⟨h.DataCenter == dc, rfl⟩
  · rw [whitelist_ok_shape r hosts f hok]
    exact ⟨_, whitelistClosure_accept _ h⟩

theorem builtIn_nil (f : HostFilter) (hf : BuiltIn f) :
    (∃ b, f.Accept .nil = .ok ⟨b, f, .nil⟩) ∨ f.Accept .nil = .error nilDereference := by
  rcases hf with rfl | rfl | ⟨dc, rfl⟩ | ⟨r, hosts, hok⟩
  · exact Or.inl ⟨true, rfl⟩
  · exact Or.inl ⟨false, rfl⟩
  · exact Or.inr rfl
  · rw [whitelist_ok_shape r hosts f hok]
    exact Or.inr rfl

theorem builtIn_returned (f : HostFilter) (hf : BuiltIn f) (p : HostPtr) (r : Returned)
    (hr : f.Accept p = .ok r) : r.filter = f ∧ r.host = p := by
  cases p with
  | nil =>
    rcases builtIn_nil f hf with ⟨b, hb⟩ | he
    · rw [hb] at hr
      cases hr
      exact ⟨rfl, rfl⟩
    · rw [he] at hr
      cases hr
  | ref h =>
    obtain ⟨b, hb⟩ := builtIn_readOnly f hf h
    rw [hb] at hr
    cases hr
    exact ⟨rfl, rfl⟩

theorem afterCalls_builtIn (f : HostFilter) (hf : BuiltIn f) (hs : List HostPtr) :
    afterCalls f hs = f := by
  induction hs with
  | nil => rfl
  | cons p hs ih =>
    rcases hp : f.Accept p with e | r
    · simp only [afterCalls, hp]
      exact ih
    · simp only [afterCalls, hp]
      rw [(builtIn_returned f hf p r hp).1]
      exact ih

/-! ## Claims -/

/-- C1: when the resolver succeeds on the batch with descriptors R, construction of
the whitelist filter succeeds and, for every host h, Accept returns true exactly
when the peer of h equals the peer of some descriptor of R (and returns false
otherwise).  With the addresses 10.0.0.1 and 10.0.0.2 resolved one-to-one to
themselves the filter accepts peer 10.0.0.1 and rejects peer 10.0.0.3. -/
theorem whitelist_accept_iff_resolved_peer :
    (∀ (r : Resolver) (addresses : List String) (R : List HostInfo),
      r (hostSpecs addresses) = (R, none) →
      ∃ f, (WhiteListHostFilter r addresses).outcome = .ok f ∧
        ∀ h : HostInfo, ∃ b, f.decision h = .ok b ∧ (b = true ↔ ∃ d ∈ R, h.Peer = d.peer)) ∧
    (∃ f, (WhiteListHostFilter selfResolver ["10.0.0.1", "10.0.0.2"]).outcome = .ok f ∧
      f.decision (hostWithPeer (utf8Bytes "10.0.0.1")) = .ok true ∧
      f.decision (hostWithPeer (utf8Bytes "10.0.0.3")) = .ok false) := by
  refine ⟨?_, ⟨_, rfl, rfl, rfl⟩⟩
  intro r addresses R hres
  refine ⟨whitelistClosure (buildWhitelist R), ?_, ?_⟩
  · rw [whitelist_outcome, hres]
  · intro h
    refine ⟨(buildWhitelist R).get (toGoString h.Peer), rfl, ?_⟩
    rw [buildWhitelist_get]
    constructor
    · rintro ⟨d, hd, hp⟩
      exact ⟨d, hd, hp.symm⟩
    · rintro ⟨d, hd, hp⟩
      exact ⟨d, hd, hp.symm⟩

/-- Witness of C1: the general statement applied to the self-resolving resolver on
the addresses 10.0.0.1 and 10.0.0.2. -/
theorem whitelist_accept_iff_resolved_peer_witness :
    selfResolver (hostSpecs ["10.0.0.1", "10.0.0.2"]) =
        ((selfResolver (hostSpecs ["10.0.0.1", "10.0.0.2"])).1, none) ∧
      ∃ f, (WhiteListHostFilter selfResolver ["10.0.0.1", "10.0.0.2"]).outcome = .ok f ∧
        ∀ h : HostInfo, ∃ b, f.decision h = .ok b ∧
          (b = true ↔ ∃ d ∈ (selfResolver (hostSpecs ["10.0.0.1", "10.0.0.2"])).1,
            h.Peer = d.peer) :=
  ⟨rfl, whitelist_accept_iff_resolved_peer.1 selfResolver ["10.0.0.1", "10.0.0.2"] _ rfl⟩

/-- C2: construction of the whitelist filter fails (panics, no filter is returned)
exactly when the resolver reports an error for the batch, whatever descriptors the
resolver returned alongside the error; and it yields a filter exactly when the
resolver reports no error. -/
theorem whitelist_fails_iff_resolver_error (r : Resolver) (addresses : List String) :
    ((∃ msg, (WhiteListHostFilter r addresses).outcome = .error msg) ↔
        (r (hostSpecs addresses)).2 ≠ none) ∧
    ((∃ f, (WhiteListHostFilter r addresses).outcome = .ok f) ↔
        (r (hostSpecs addresses)).2 = none) ∧
    (∀ (R : List HostInfo) (err : String), r (hostSpecs addresses) = (R, some err) →
        (WhiteListHostFilter r addresses).outcome = .error (lookupPanic err) ∧
        ∀ f, (WhiteListHostFilter r addresses).outcome ≠ .ok f) := by
  rw [whitelist_outcome]
  refine ⟨?_, ?_, ?_⟩
  · rcases (r (hostSpecs addresses)).2 with _ | err <;> simp
  · rcases (r (hostSpecs addresses)).2 with _ | err <;> simp
  · intro R err hres
    simp [hres]

/-- Witness of C2: a resolver that reports an error together with a resolved
descriptor makes construction panic. -/
theorem whitelist_fails_iff_resolver_error_witness :
    partialResolver (hostSpecs ["10.0.0.1"]) =
        ((selfResolver (hostSpecs ["10.0.0.1"])).1, some "lookup failed") ∧
      (selfResolver (hostSpecs ["10.0.0.1"])).1 ≠ [] ∧
      (WhiteListHostFilter partialResolver ["10.0.0.1"]).outcome =
        .error (lookupPanic "lookup failed") ∧
      ∀ f, (WhiteListHostFilter partialResolver ["10.0.0.1"]).outcome ≠ .ok f :=
  ⟨rfl, by simp [selfResolver, hostSpecs],
    (whitelist_fails_iff_resolver_error partialResolver ["10.0.0.1"]).2.2 _ _ rfl⟩

/-- C3: for every target label dc and host h, the data-centre filter returns true
exactly when the data centre of h is the string dc itself, and false otherwise.
Target us-east accepts us-east and rejects us-west, the empty label, and labels
that differ only in case or surrounding blanks. -/
theorem dataCentre_accept_iff_equal :
    (∀ (dc : String) (h : HostInfo),
      ∃ b, (DataCentreHostFilter dc).decision h = .ok b ∧ (b = true ↔ h.DataCenter = dc)) ∧
    (DataCentreHostFilter "us-east").decision (hostInDataCentre "us-east") = .ok true ∧
    (DataCentreHostFilter "us-east").decision (hostInDataCentre "us-west") = .ok false ∧
    (DataCentreHostFilter "us-east").decision (hostInDataCentre "") = .ok false ∧
    (DataCentreHostFilter "us-east").decision (hostInDataCentre "US-EAST") = .ok false ∧
    (DataCentreHostFilter "us-east").decision (hostInDataCentre " us-east ") = .ok false := by
  refine ⟨?_, rfl, rfl, rfl, rfl, rfl⟩
  intro dc h
  exact ⟨h.DataCenter == dc, rfl, by simp⟩

/-- C4: the accept-all filter returns true for every host, the host with all fields
empty included; it returns true on the nil pointer as well. -/
theorem acceptAll_accepts_every_host :
    (∀ h : HostInfo, AcceptAllFilter.decision h = .ok true) ∧
    AcceptAllFilter.decision emptyHost = .ok true ∧
    (∀ p : HostPtr, AcceptAllFilter.decisionAt p = .ok true) :=
  ⟨fun _ => rfl, rfl, fun _ => rfl⟩

/-- C5: the deny-all filter returns false for every host; it returns false on the
nil pointer as well. -/
theorem denyAll_rejects_every_host :
    (∀ h : HostInfo, DenyAllFilter.decision h = .ok false) ∧
    (∀ p : HostPtr, DenyAllFilter.decisionAt p = .ok false) :=
  ⟨fun _ => rfl, fun _ => rfl⟩

/-- C6, as stated, fails: the nil pointer can be passed to Accept, and on it the
data-centre filter and a successfully constructed whitelist filter panic with a nil
dereference, so Accept is not total over everything that can be passed. -/
theorem builtIn_accept_nil_panics :
    BuiltIn (DataCentreHostFilter "us-east") ∧
    (DataCentreHostFilter "us-east").Accept .nil = .error nilDereference ∧
    (WhiteListHostFilter selfResolver ["10.0.0.1"]).outcome =
      .ok (whitelistClosure (buildWhitelist (selfResolver (hostSpecs ["10.0.0.1"])).1)) ∧
    (whitelistClosure (buildWhitelist (selfResolver (hostSpecs ["10.0.0.1"])).1)).Accept .nil =
      .error nilDereference ∧
    ¬ (∀ f : HostFilter, BuiltIn f → ∀ p : HostPtr, ∃ r : Returned, f.Accept p = .ok r) := by
  refine ⟨Or.inr (Or.inr (Or.inl ⟨"us-east", rfl⟩)), rfl, rfl, rfl, ?_⟩
  intro hall
  obtain ⟨r, hr⟩ := hall (DataCentreHostFilter "us-east")
    (Or.inr (Or.inr (Or.inl ⟨"us-east", rfl⟩))) .nil
  have hpanic : (DataCentreHostFilter "us-east").Accept .nil = .error nilDereference := rfl
  rw [hpanic] at hr
  cases hr

/-- C6, amended: on every built-in filter instance and every pointer to a host
descriptor, the descriptor with an empty data centre and an empty peer included, a
call of Accept does not panic and returns a boolean.  On the nil pointer the
accept-all and deny-all filters return as well, and every built-in instance either
returns or panics with the nil dereference. -/
theorem builtIn_accept_total (f : HostFilter) (hf : BuiltIn f) :
    (∀ h : HostInfo, ∃ r : Returned, f.Accept (.ref h) = .ok r) ∧
    (∀ h : HostInfo, ∃ b : Bool, f.decision h = .ok b) ∧
    (∃ b : Bool, f.decision emptyHost = .ok b) ∧
    (∀ p : HostPtr, ∃ r : Returned, AcceptAllFilter.Accept p = .ok r) ∧
    (∀ p : HostPtr, ∃ r : Returned, DenyAllFilter.Accept p = .ok r) ∧
    ((∃ r : Returned, f.Accept .nil = .ok r) ∨ f.Accept .nil = .error nilDereference) := by
  have key : ∀ h : HostInfo, ∃ b : Bool, f.decision h = .ok b := by
    intro h
    obtain ⟨b, hb⟩ := builtIn_readOnly f hf h
    exact ⟨b, by simp [HostFilterFunc.decision, HostFilterFunc.decisionAt, hb]⟩
  refine ⟨?_, key, key emptyHost, fun p => ⟨_, rfl⟩, fun p => ⟨_, rfl⟩, ?_⟩
  · intro h
    obtain ⟨b, hb⟩ := builtIn_readOnly f hf h
    exact ⟨_, hb⟩
  · rcases builtIn_nil f hf with ⟨b, hb⟩ | he
    · exact Or.inl ⟨_, hb⟩
    · exact Or.inr he

/-- Witness of C6: the whitelist filter built from 10.0.0.1 with the self-resolving
resolver is a built-in instance, and Accept is total on it over descriptors. -/
theorem builtIn_accept_total_witness :
    BuiltIn (whitelistClosure (buildWhitelist (selfResolver (hostSpecs ["10.0.0.1"])).1)) ∧
      ∃ b : Bool,
        (whitelistClosure (buildWhitelist (selfResolver (hostSpecs ["10.0.0.1"])).1)).decision
          emptyHost = .ok b :=
  ⟨Or.inr (Or.inr (Or.inr ⟨selfResolver, ["10.0.0.1"], rfl⟩)),
    (builtIn_accept_total _ (Or.inr (Or.inr (Or.inr ⟨selfResolver, ["10.0.0.1"], rfl⟩)))).2.2.1⟩

/-- C7: on a built-in filter instance f, whatever Accept calls were made before and
whatever Accept calls are made in between (calls on the nil pointer included), two
calls of Accept on the same host both return, with the same boolean; that boolean
is the one the freshly constructed instance returns for the host.  On every
pointer, nil included, a first and a later call have the outcome the freshly
constructed instance has. -/
theorem builtIn_accept_deterministic (f : HostFilter) (hf : BuiltIn f)
    (before between : List HostPtr) (h : HostInfo) :
    (∃ (b : Bool) (r1 r2 : Returned),
      (afterCalls f before).Accept (.ref h) = .ok r1 ∧
      (afterCalls r1.filter between).Accept r1.host = .ok r2 ∧
      r1.value = b ∧ r2.value = b ∧ f.decision h = .ok b) ∧
    (∀ p : HostPtr,
      (afterCalls f before).decisionAt p = f.decisionAt p ∧
      (afterCalls (afterCalls f before) (p :: between)).decisionAt p = f.decisionAt p) := by
  obtain ⟨b, hb⟩ := builtIn_readOnly f hf h
  refine ⟨⟨b, ⟨b, f, .ref h⟩, ⟨b, f, .ref h⟩, ?_, ?_, rfl, rfl, ?_⟩, ?_⟩
  · rw [afterCalls_builtIn f hf before, hb]
  · rw [afterCalls_builtIn f hf between, hb]
  · simp [HostFilterFunc.decision, HostFilterFunc.decisionAt, hb]
  · intro p
    rw [afterCalls_builtIn f hf before, afterCalls_builtIn f hf (p :: between)]
    exact ⟨rfl, rfl⟩

/-- Witness of C7: the data-centre filter for us-east, called on a us-west host and
on the nil pointer before, and on an empty host, the nil pointer and a us-east host
in between two calls on a us-east host. -/
theorem builtIn_accept_deterministic_witness :
    BuiltIn (DataCentreHostFilter "us-east") ∧
      ∃ (b : Bool) (r1 r2 : Returned),
        (afterCalls (DataCentreHostFilter "us-east")
            [.ref (hostInDataCentre "us-west"), .nil]).Accept
            (.ref (hostInDataCentre "us-east")) = .ok r1 ∧
        (afterCalls r1.filter
            [.ref emptyHost, .nil, .ref (hostInDataCentre "us-east")]).Accept r1.host = .ok r2 ∧
        r1.value = b ∧ r2.value = b ∧
        (DataCentreHostFilter "us-east").decision (hostInDataCentre "us-east") = .ok b :=
  ⟨Or.inr (Or.inr (Or.inl ⟨"us-east", rfl⟩)),
    (builtIn_accept_deterministic _ (Or.inr (Or.inr (Or.inl ⟨"us-east", rfl⟩)))
      [.ref (hostInDataCentre "us-west"), .nil]
      [.ref emptyHost, .nil, .ref (hostInDataCentre "us-east")]
      (hostInDataCentre "us-east")).1⟩

/-- C8: a call of Accept on a built-in filter instance with a pointer to a host
returns and leaves both the host descriptor (peer, data centre, address, port and
the other fields) and the filter instance with its captured state (the whitelist
map, the target label) equal to what they were before the call.  Whatever pointer
is passed, nil included, a call that returns leaves the pointer target and the
filter instance unchanged. -/
theorem builtIn_accept_frame (f : HostFilter) (hf : BuiltIn f) (h : HostInfo) :
    (∃ (r : Returned) (after : HostInfo), f.Accept (.ref h) = .ok r ∧
      r.host = .ref after ∧ after = h ∧
      after.peer = h.peer ∧ after.dataCenter = h.dataCenter ∧
      after.address = h.address ∧ after.port = h.port ∧
      r.filter = f ∧ HEq r.filter.env f.env) ∧
    (∀ (p : HostPtr) (r : Returned), f.Accept p = .ok r →
      r.host = p ∧ r.filter = f ∧ HEq r.filter.env f.env) := by
  obtain ⟨b, hb⟩ := builtIn_readOnly f hf h
  refine ⟨⟨⟨b, f, .ref h⟩, h, hb, rfl, rfl, rfl, rfl, rfl, rfl, rfl, HEq.rfl⟩, ?_⟩
  intro p r hr
  obtain ⟨hfilter, hhost⟩ := builtIn_returned f hf p r hr
  refine ⟨hhost, hfilter, ?_⟩
  rw [hfilter]

/-- Witness of C8: the whitelist filter built from 10.0.0.1 and 10.0.0.2 with the
self-resolving resolver, called on the host with peer 10.0.0.1. -/
theorem builtIn_accept_frame_witness :
    BuiltIn (whitelistClosure
        (buildWhitelist (selfResolver (hostSpecs ["10.0.0.1", "10.0.0.2"])).1)) ∧
      ∃ (r : Returned) (after : HostInfo),
        (whitelistClosure
          (buildWhitelist (selfResolver (hostSpecs ["10.0.0.1", "10.0.0.2"])).1)).Accept
            (.ref (hostWithPeer (utf8Bytes "10.0.0.1"))) = .ok r ∧
        r.host = .ref after ∧ after = hostWithPeer (utf8Bytes "10.0.0.1") ∧
        after.peer = (hostWithPeer (utf8Bytes "10.0.0.1")).peer ∧
        after.dataCenter = (hostWithPeer (utf8Bytes "10.0.0.1")).dataCenter ∧
        after.address = (hostWithPeer (utf8Bytes "10.0.0.1")).address ∧
        after.port = (hostWithPeer (utf8Bytes "10.0.0.1")).port ∧
        r.filter = whitelistClosure
          (buildWhitelist (selfResolver (hostSpecs ["10.0.0.1", "10.0.0.2"])).1) ∧
        HEq r.filter.env (whitelistClosure
          (buildWhitelist (selfResolver (hostSpecs ["10.0.0.1", "10.0.0.2"])).1)).env :=
  ⟨Or.inr (Or.inr (Or.inr ⟨selfResolver, ["10.0.0.1", "10.0.0.2"], rfl⟩)),
    (builtIn_accept_frame _
      (Or.inr (Or.inr (Or.inr ⟨selfResolver, ["10.0.0.1", "10.0.0.2"], rfl⟩)))
      (hostWithPeer (utf8Bytes "10.0.0.1"))).1⟩

/-- C9: for every function value fn and pointer h, the Accept method of the adapter
does exactly what the call fn(h) does (same result, same effects, same panic); for
a function that only computes a boolean from its argument, Accept returns that
boolean, on a pointer to a host and on the nil pointer alike. -/
theorem hostFilterFunc_accept_eq_call :
    (∀ (fn : HostFilterFunc) (h : HostPtr), HostFilterFunc.Accept fn h = fn.call h) ∧
    (∀ (p : HostPtr → Bool) (h : HostInfo),
      (HostFilterFunc.ofPure p).decision h = .ok (p (.ref h))) ∧
    (∀ (p : HostPtr → Bool) (h : HostPtr),
      (HostFilterFunc.ofPure p).decisionAt h = .ok (p h)) :=
  ⟨fun _ _ => rfl, fun _ _ => rfl, fun _ _ => rfl⟩

/-- C10: for a non-empty target label the data-centre filter rejects every host
whose data centre is the empty string; for the empty target label it accepts a
host exactly when the data centre of the host is the empty string. -/
theorem dataCentre_empty_label :
    (∀ (dc : String) (h : HostInfo), dc ≠ "" → h.DataCenter = "" →
      (DataCentreHostFilter dc).decision h = .ok false) ∧
    (∀ h : HostInfo,
      ∃ b, (DataCentreHostFilter "").decision h = .ok b ∧ (b = true ↔ h.DataCenter = "")) := by
  constructor
  · intro dc h hdc hh
    have hne : (h.DataCenter == dc) = false := by
      rw [hh]
      simp only [beq_eq_false_iff_ne]
      exact fun e => hdc e.symm
    show Except.ok (h.DataCenter == dc) = Except.ok false
    rw [hne]
  · intro h
    exact ⟨h.DataCenter == "", rfl, by simp⟩

/-- Witness of C10: target us-east and the host with all fields empty. -/
theorem dataCentre_empty_label_witness :
    ("us-east" : String) ≠ "" ∧ emptyHost.DataCenter = "" ∧
      (DataCentreHostFilter "us-east").decision emptyHost = .ok false :=
  ⟨by decide, rfl, dataCentre_empty_label.1 "us-east" emptyHost (by decide) rfl⟩

/-! ## Lemmas on the whitelist decision -/

theorem buildWhitelist_get_peersOf (R : List HostInfo) (q : GoString) :
    (buildWhitelist R).get q = true ↔ q ∈ peersOf R := by
  rw [buildWhitelist_get]
  simp [peersOf]

theorem whitelist_ok_decision (r : Resolver) (addresses : List String) (R : List HostInfo)
    (f : HostFilter) (hres : r (hostSpecs addresses) = (R, none))
    (hok : (WhiteListHostFilter r addresses).outcome = .ok f) (h : HostInfo) :
    f.decision h = .ok ((buildWhitelist R).get (toGoString h.Peer)) := by
  rw [whitelist_ok_shape r addresses f hok, hres]
  rfl

theorem whitelist_lookups (r : Resolver) (addresses : List String) :
    (WhiteListHostFilter r addresses).lookups = [hostSpecs addresses] := by
  unfold WhiteListHostFilter
  rw [whitelist_body_run]

theorem whitelist_body_callsOnce (addresses : List String) :
    (whiteListHostFilterBody addresses).callsOnceOn (hostSpecs addresses) := by
  refine ⟨rfl, ?_⟩
  rintro ⟨R, _ | err⟩
  · exact ⟨_, rfl⟩
  · exact ⟨_, rfl⟩

/-! ## Claims on the whitelist construction -/

/-- C12: the body of the whitelist constructor calls the resolver exactly once and
then finishes, whatever the resolver answers; run against any resolver, the batches
handed to the resolver are the single batch that has one host spec per argument, in
argument order, the i-th spec carrying the i-th address unchanged and the zero
port; empty, blank-padded and repeated addresses are passed through as they are. -/
theorem whitelist_resolver_called_once_on_specs :
    (∀ addresses : List String,
      (whiteListHostFilterBody addresses).callsOnceOn (hostSpecs addresses)) ∧
    (∀ (r : Resolver) (addresses : List String),
      (WhiteListHostFilter r addresses).lookups = [hostSpecs addresses] ∧
      (WhiteListHostFilter r addresses).lookups.length = 1 ∧
      (hostSpecs addresses).length = addresses.length ∧
      ∀ i : Nat, (hostSpecs addresses)[i]? =
        (addresses[i]?).map (fun a => ({ Host := a, Port := 0 } : Host))) ∧
    (WhiteListHostFilter selfResolver ["b", "", " a ", "b"]).lookups =
      [[⟨"b", 0⟩, ⟨"", 0⟩, ⟨" a ", 0⟩, ⟨"b", 0⟩]] ∧
    (WhiteListHostFilter partialResolver ["b", "", " a ", "b"]).lookups =
      [[⟨"b", 0⟩, ⟨"", 0⟩, ⟨" a ", 0⟩, ⟨"b", 0⟩]] := by
  refine ⟨whitelist_body_callsOnce, ?_, rfl, rfl⟩
  intro r addresses
  refine ⟨whitelist_lookups r addresses, ?_, ?_, ?_⟩
  · rw [whitelist_lookups]
    rfl
  · simp [hostSpecs]
  · intro i
    simp [hostSpecs]

/-- C13: on a successfully constructed whitelist filter, a host whose peer bytes
differ from the peer bytes of every resolved descriptor is rejected.  When only the
16-byte form of 10.0.0.1 was resolved, that form is accepted, while the 4-byte
form, a proper initial segment and an extension by one byte are rejected. -/
theorem whitelist_rejects_unmatched_peer :
    (∀ (r : Resolver) (addresses : List String) (R : List HostInfo) (f : HostFilter),
      r (hostSpecs addresses) = (R, none) →
      (WhiteListHostFilter r addresses).outcome = .ok f →
      ∀ h : HostInfo, (∀ d ∈ R, d.peer ≠ h.Peer) → f.decision h = .ok false) ∧
    (∃ f, (WhiteListHostFilter (fixedResolver [hostWithPeer (ipv4In16 10 0 0 1)])
          ["10.0.0.1"]).outcome = .ok f ∧
      f.decision (hostWithPeer (ipv4In16 10 0 0 1)) = .ok true ∧
      f.decision (hostWithPeer (ipv4 10 0 0 1)) = .ok false ∧
      f.decision (hostWithPeer ((ipv4In16 10 0 0 1).take 15)) = .ok false ∧
      f.decision (hostWithPeer (ipv4In16 10 0 0 1 ++ [0])) = .ok false) := by
  refine ⟨?_, ⟨_, rfl, rfl, rfl, rfl, rfl⟩⟩
  intro r addresses R f hres hok h hne
  rw [whitelist_ok_decision r addresses R f hres hok h]
  have hfalse : (buildWhitelist R).get (toGoString h.Peer) = false := by
    rw [← Bool.not_eq_true, buildWhitelist_get]
    rintro ⟨d, hd, hp⟩
    exact hne d hd hp
  rw [hfalse]

/-- Witness of C13: only the 16-byte form of 10.0.0.1 is resolved and the host
carries the 4-byte form. -/
theorem whitelist_rejects_unmatched_peer_witness :
    fixedResolver [hostWithPeer (ipv4In16 10 0 0 1)] (hostSpecs ["10.0.0.1"]) =
        ([hostWithPeer (ipv4In16 10 0 0 1)], none) ∧
      (WhiteListHostFilter (fixedResolver [hostWithPeer (ipv4In16 10 0 0 1)])
          ["10.0.0.1"]).outcome =
        .ok (whitelistClosure (buildWhitelist [hostWithPeer (ipv4In16 10 0 0 1)])) ∧
      (∀ d ∈ [hostWithPeer (ipv4In16 10 0 0 1)],
        d.peer ≠ (hostWithPeer (ipv4 10 0 0 1)).Peer) ∧
      (whitelistClosure (buildWhitelist [hostWithPeer (ipv4In16 10 0 0 1)])).decision
        (hostWithPeer (ipv4 10 0 0 1)) = .ok false :=
  ⟨rfl, rfl, by decide,
    whitelist_rejects_unmatched_peer.1 (fixedResolver [hostWithPeer (ipv4In16 10 0 0 1)])
      ["10.0.0.1"] [hostWithPeer (ipv4In16 10 0 0 1)] _ rfl rfl
      (hostWithPeer (ipv4 10 0 0 1)) (by decide)⟩

/-- C14: two successfully constructed whitelist filters whose resolver results hold
the same peers, up to order and repetition, return the same decision on every
host; in particular this holds when one result is a reordering of the other. -/
theorem whitelist_depends_only_on_peer_set :
    (∀ (r1 r2 : Resolver) (a1 a2 : List String) (R1 R2 : List HostInfo) (f1 f2 : HostFilter),
      r1 (hostSpecs a1) = (R1, none) → r2 (hostSpecs a2) = (R2, none) →
      (WhiteListHostFilter r1 a1).outcome = .ok f1 →
      (WhiteListHostFilter r2 a2).outcome = .ok f2 →
      (∀ p : IP, p ∈ peersOf R1 ↔ p ∈ peersOf R2) →
      ∀ h : HostInfo, f1.decision h = f2.decision h) ∧
    (∀ (r1 r2 : Resolver) (a1 a2 : List String) (R1 R2 : List HostInfo) (f1 f2 : HostFilter),
      r1 (hostSpecs a1) = (R1, none) → r2 (hostSpecs a2) = (R2, none) →
      (WhiteListHostFilter r1 a1).outcome = .ok f1 →
      (WhiteListHostFilter r2 a2).outcome = .ok f2 →
      R1.Perm R2 →
      ∀ h : HostInfo, f1.decision h = f2.decision h) := by
  have key : ∀ (r1 r2 : Resolver) (a1 a2 : List String) (R1 R2 : List HostInfo)
      (f1 f2 : HostFilter),
      r1 (hostSpecs a1) = (R1, none) → r2 (hostSpecs a2) = (R2, none) →
      (WhiteListHostFilter r1 a1).outcome = .ok f1 →
      (WhiteListHostFilter r2 a2).outcome = .ok f2 →
      (∀ p : IP, p ∈ peersOf R1 ↔ p ∈ peersOf R2) →
      ∀ h : HostInfo, f1.decision h = f2.decision h := by
    intro r1 r2 a1 a2 R1 R2 f1 f2 h1 h2 ok1 ok2 hsame h
    rw [whitelist_ok_decision r1 a1 R1 f1 h1 ok1 h, whitelist_ok_decision r2 a2 R2 f2 h2 ok2 h]
    congr 1
    rw [Bool.eq_iff_iff, buildWhitelist_get_peersOf, buildWhitelist_get_peersOf]
    exact hsame _
  refine ⟨key, ?_⟩
  intro r1 r2 a1 a2 R1 R2 f1 f2 h1 h2 ok1 ok2 hperm
  refine key r1 r2 a1 a2 R1 R2 f1 f2 h1 h2 ok1 ok2 ?_
  intro p
  exact (hperm.map (fun d => d.peer)).mem_iff

/-- Witness of C14: the resolver results [A, B] and [B, A, B], with A and B the
16-byte forms of 10.0.0.1 and 10.0.0.2. -/
theorem whitelist_depends_only_on_peer_set_witness :
    (∀ p : IP,
        p ∈ peersOf [hostWithPeer (ipv4In16 10 0 0 1), hostWithPeer (ipv4In16 10 0 0 2)] ↔
        p ∈ peersOf [hostWithPeer (ipv4In16 10 0 0 2), hostWithPeer (ipv4In16 10 0 0 1),
          hostWithPeer (ipv4In16 10 0 0 2)]) ∧
      ∀ h : HostInfo,
        (whitelistClosure (buildWhitelist
          [hostWithPeer (ipv4In16 10 0 0 1), hostWithPeer (ipv4In16 10 0 0 2)])).decision h =
        (whitelistClosure (buildWhitelist
          [hostWithPeer (ipv4In16 10 0 0 2), hostWithPeer (ipv4In16 10 0 0 1),
            hostWithPeer (ipv4In16 10 0 0 2)])).decision h :=
  ⟨fun p => by simp [peersOf]; tauto,
    whitelist_depends_only_on_peer_set.1
      (fixedResolver [hostWithPeer (ipv4In16 10 0 0 1), hostWithPeer (ipv4In16 10 0 0 2)])
      (fixedResolver [hostWithPeer (ipv4In16 10 0 0 2), hostWithPeer (ipv4In16 10 0 0 1),
        hostWithPeer (ipv4In16 10 0 0 2)])
      ["10.0.0.1", "10.0.0.2"] ["10.0.0.2", "10.0.0.1", "10.0.0.2"] _ _ _ _ rfl rfl rfl rfl
      (fun p => by simp [peersOf]; tauto)⟩

/-- C15: when the resolver succeeds with no descriptors, construction of the
whitelist filter succeeds and the filter rejects every host, so it agrees with the
deny-all filter on every host. -/
theorem whitelist_empty_resolution_denies_all (r : Resolver) (addresses : List String)
    (hres : r (hostSpecs addresses) = ([], none)) :
    ∃ f, (WhiteListHostFilter r addresses).outcome = .ok f ∧
      ∀ h : HostInfo, f.decision h = .ok false ∧ f.decision h = DenyAllFilter.decision h := by
  refine ⟨whitelistClosure (buildWhitelist []), ?_, ?_⟩
  · rw [whitelist_outcome, hres]
  · intro h
    exact ⟨rfl, rfl⟩

/-- Witness of C15: the constructor called with no addresses and a resolver that
accepts the empty batch. -/
theorem whitelist_empty_resolution_denies_all_witness :
    selfResolver (hostSpecs []) = ([], none) ∧
      ∃ f, (WhiteListHostFilter selfResolver []).outcome = .ok f ∧
        ∀ h : HostInfo, f.decision h = .ok false ∧ f.decision h = DenyAllFilter.decision h :=
  ⟨rfl, whitelist_empty_resolution_denies_all selfResolver [] rfl⟩

/-- C16: if every peer of the resolver result R1 also occurs in the resolver result
R2, then every host accepted by the whitelist filter built from R1 is accepted by
the whitelist filter built from R2. -/
theorem whitelist_monotone (r1 r2 : Resolver) (a1 a2 : List String) (R1 R2 : List HostInfo)
    (f1 f2 : HostFilter)
    (h1 : r1 (hostSpecs a1) = (R1, none)) (h2 : r2 (hostSpecs a2) = (R2, none))
    (ok1 : (WhiteListHostFilter r1 a1).outcome = .ok f1)
    (ok2 : (WhiteListHostFilter r2 a2).outcome = .ok f2)
    (hsub : ∀ p ∈ peersOf R1, p ∈ peersOf R2)
    (h : HostInfo) (hacc : f1.decision h = .ok true) :
    f2.decision h = .ok true := by
  rw [whitelist_ok_decision r1 a1 R1 f1 h1 ok1 h] at hacc
  rw [whitelist_ok_decision r2 a2 R2 f2 h2 ok2 h]
  have hmem : toGoString h.Peer ∈ peersOf R1 :=
    (buildWhitelist_get_peersOf R1 _).1 (Except.ok.inj hacc)
  rw [(buildWhitelist_get_peersOf R2 _).2 (hsub _ hmem)]

/-- Witness of C16: the resolver results [A] and [B, A], with A and B the 16-byte
forms of 10.0.0.1 and 10.0.0.2, and the host with peer A. -/
theorem whitelist_monotone_witness :
    (∀ p ∈ peersOf [hostWithPeer (ipv4In16 10 0 0 1)],
        p ∈ peersOf [hostWithPeer (ipv4In16 10 0 0 2), hostWithPeer (ipv4In16 10 0 0 1)]) ∧
      (whitelistClosure (buildWhitelist [hostWithPeer (ipv4In16 10 0 0 1)])).decision
        (hostWithPeer (ipv4In16 10 0 0 1)) = .ok true ∧
      (whitelistClosure (buildWhitelist
        [hostWithPeer (ipv4In16 10 0 0 2), hostWithPeer (ipv4In16 10 0 0 1)])).decision
        (hostWithPeer (ipv4In16 10 0 0 1)) = .ok true :=
  ⟨by simp [peersOf], rfl,
    whitelist_monotone (fixedResolver [hostWithPeer (ipv4In16 10 0 0 1)])
      (fixedResolver [hostWithPeer (ipv4In16 10 0 0 2), hostWithPeer (ipv4In16 10 0 0 1)])
      ["10.0.0.1"] ["10.0.0.2", "10.0.0.1"] _ _ _ _ rfl rfl rfl rfl
      (by simp [peersOf]) (hostWithPeer (ipv4In16 10 0 0 1)) rfl⟩

end Gocql
